import Mathlib

/-!
Verification of the order-lifecycle and ranking core of the booth backend.

The definitions below are a shallow embedding of the TypeScript services:
- `src/modules/marketplace/order.service.ts` (OrderService) together with the
  order repository and the stock updates performed through
  `ProductService.updateProduct` in admin mode;
- `src/modules/rankings` RankingService (adjustRanking,
  applyOrderCompletionRanking, applyPostEngagementRanking) over the
  RankingRepository;
- `src/modules/engagement/engagement.service.ts` (EngagementService) over the
  EngagementRepository.

JavaScript numbers are modelled as exact rationals; persistent tables are
modelled as finite maps (functions to Option, or lists of records for the
engagement table, matching the query shapes used by the code).  Thrown domain
errors become `Except` values; each error constructor corresponds to one
throw site and carries the message class used by the HTTP controllers.
-/

namespace Booth

/-! ## Data model -/

/-- Order status enum from the Prisma schema, used by order.service.ts. -/
inductive OrderStatus
  | pending
  | processing
  | shipped
  | completed
  | canceled
deriving DecidableEq

/-- MarketplaceProduct restricted to the fields read or written by the order
lifecycle: sellerId, price, stock, isActive. -/
structure Product where
  sellerId : String
  price : ℚ
  stock : ℤ
  isActive : Bool
deriving DecidableEq

/-- Order row: buyerId, productId, quantity, totalPrice, status, optional
shipping address. -/
structure Order where
  buyerId : String
  productId : String
  quantity : ℤ
  totalPrice : ℚ
  status : OrderStatus
  shippingAddress : Option String
deriving DecidableEq

/-- The marketplace database: products and orders keyed by id. -/
structure MarketState where
  products : String → Option Product
  orders : String → Option Order

/-- Write one product row (Prisma update on the products table). -/
def setProduct (s : MarketState) (id : String) (p : Product) : MarketState :=
  { s with products := fun i => if i = id then some p else s.products i }

/-- Write one order row (Prisma create/update on the orders table). -/
def setOrder (s : MarketState) (id : String) (o : Order) : MarketState :=
  { s with orders := fun i => if i = id then some o else s.orders i }

/-- OrderWithDetails: an order joined with its product (which carries the
seller id), as returned by OrderRepository.findById. -/
structure OrderWithDetails where
  order : Order
  product : Product
deriving DecidableEq

/-- OrderRepository.findById: load the order and join its product row.  The
product relation is required in the schema, so for well-formed states the
inner lookup always succeeds. -/
def findOrderById (s : MarketState) (id : String) : Option OrderWithDetails :=
  match s.orders id with
  | none => none
  | some o =>
    match s.products o.productId with
    | none => none
    | some p => some ⟨o, p⟩

/-- Domain errors of the marketplace module; one constructor per throw site
in order.service.ts / product.service.ts. -/
inductive OrderErr
  | productNotFound
  | productNotAvailable
  | insufficientStock
  | priceMismatch
  | orderNotFound
  | notAuthorized
  | invalidTransition (src tgt : OrderStatus)
  | completedTerminal
  | canceledTerminal
  | sellerRoleRestriction
  | buyerRoleRestriction
  | onlyPendingCancelable
  | notProductOwner
deriving DecidableEq

/-- HTTP status code assigned by OrderController.updateOrderStatus to each
error, following its message matching: messages containing "not found" map
to 404, "not authorized" or "can only" to 403, "Cannot" to 400, anything
else is re-thrown as a 500 server error. -/
def updateStatusHttpCode : OrderErr → Nat
  | .orderNotFound => 404
  | .productNotFound => 404
  | .notAuthorized => 403
  | .sellerRoleRestriction => 403
  | .buyerRoleRestriction => 403
  | .notProductOwner => 403
  | .invalidTransition _ _ => 400
  | .completedTerminal => 400
  | .canceledTerminal => 400
  | .productNotAvailable => 500
  | .insufficientStock => 500
  | .priceMismatch => 500
  | .onlyPendingCancelable => 500

/-! ## ProductService.updateProduct (stock patch)

Both call sites in OrderService pass a stock-only patch and isAdmin = true;
we model updateProduct applied to such a patch. -/

/-- ProductService.updateProduct with a `\x7b stock \x7d` patch: re-fetch the
product, check ownership unless isAdmin, then write the new stock. -/
def updateProductStock (s : MarketState) (productId userId : String)
    (newStock : ℤ) (isAdmin : Bool) : Except OrderErr MarketState :=
  match s.products productId with
  | none => .error .productNotFound
  | some p =>
    if ¬isAdmin ∧ p.sellerId ≠ userId then .error .notProductOwner
    else .ok (setProduct s productId { p with stock := newStock })

/-! ## OrderService -/

/-- CreateOrderInput from order.repository.ts: buyerId, productId, quantity,
totalPrice, optional status and shipping address. -/
structure CreateOrderInput where
  buyerId : String
  productId : String
  quantity : ℤ
  totalPrice : ℚ
  status : Option OrderStatus := none
  shippingAddress : Option String := none

/-- The order row built by OrderRepository.create: status defaults to
pending when the input carries none. -/
def mkOrder (d : CreateOrderInput) : Order :=
  { buyerId := d.buyerId
    productId := d.productId
    quantity := d.quantity
    totalPrice := d.totalPrice
    status := d.status.getD .pending
    shippingAddress := d.shippingAddress }

/-- OrderService.createOrder: load the product; fail if missing, inactive,
understocked, or if the client total differs from price*quantity by more
than 0.01; otherwise create the order and decrement the stock through the
privileged (admin-mode) product update.  `newOrderId` stands for the id
generated by the database for the created row. -/
def createOrder (s : MarketState) (newOrderId : String) (d : CreateOrderInput) :
    Except OrderErr (MarketState × Order) :=
  match s.products d.productId with
  | none => .error .productNotFound
  | some product =>
    if product.isActive = false then .error .productNotAvailable
    else if product.stock < d.quantity then .error .insufficientStock
    else
      let calculatedPrice := product.price * (d.quantity : ℚ)
      if |calculatedPrice - d.totalPrice| > 1/100 then .error .priceMismatch
      else
        let order := mkOrder d
        let s₁ := setOrder s newOrderId order
        match updateProductStock s₁ d.productId product.sellerId
            (product.stock - d.quantity) true with
        | .error e => .error e
        | .ok s₂ => .ok (s₂, order)

/-- The transition table switch at the top of validateStatusTransition:
pending may move to processing, completed or canceled; processing to
completed, shipped or canceled; shipped only to completed; completed and
canceled are terminal. -/
def transitionCheck (currentStatus newStatus : OrderStatus) : Except OrderErr Unit :=
  match currentStatus with
  | .pending =>
    if newStatus = .processing ∨ newStatus = .completed ∨ newStatus = .canceled then .ok ()
    else .error (.invalidTransition currentStatus newStatus)
  | .processing =>
    if newStatus = .completed ∨ newStatus = .shipped ∨ newStatus = .canceled then .ok ()
    else .error (.invalidTransition currentStatus newStatus)
  | .shipped =>
    if newStatus = .completed then .ok ()
    else .error (.invalidTransition currentStatus newStatus)
  | .completed => .error .completedTerminal
  | .canceled => .error .canceledTerminal

/-- OrderService.validateStatusTransition: the transition-table switch runs
first (so it throws before any role check); then a caller who is the seller
may only set processing, shipped or completed, and a caller who is the buyer
may only set canceled. -/
def validateStatusTransition (currentStatus newStatus : OrderStatus)
    (userId : String) (od : OrderWithDetails) : Except OrderErr Unit :=
  match transitionCheck currentStatus newStatus with
  | .error e => .error e
  | .ok _ =>
    if userId = od.product.sellerId ∧
        ¬(newStatus = .processing ∨ newStatus = .shipped ∨ newStatus = .completed) then
      .error .sellerRoleRestriction
    else if userId = od.order.buyerId ∧ newStatus ≠ .canceled then
      .error .buyerRoleRestriction
    else .ok ()

/-- OrderService.updateOrderStatus: load the order with details; only the
seller, buyer or an admin may proceed; validate the transition; then write
the new status (and nothing else) to the order row. -/
def updateOrderStatus (s : MarketState) (orderId : String) (status : OrderStatus)
    (userId : String) (isAdmin : Bool) : Except OrderErr (MarketState × Order) :=
  match findOrderById s orderId with
  | none => .error .orderNotFound
  | some od =>
    if ¬isAdmin ∧ od.product.sellerId ≠ userId ∧ od.order.buyerId ≠ userId then
      .error .notAuthorized
    else
      match validateStatusTransition od.order.status status userId od with
      | .error e => .error e
      | .ok _ =>
        let o' := { od.order with status := status }
        .ok (setOrder s orderId o', o')

/-- OrderService.cancelOrder: load the order; buyer, seller or admin may
cancel; only pending orders can be canceled; write status canceled and
restore the product stock by the order quantity through the privileged
product update. -/
def cancelOrder (s : MarketState) (orderId userId : String) (isAdmin : Bool) :
    Except OrderErr (MarketState × Order) :=
  match findOrderById s orderId with
  | none => .error .orderNotFound
  | some od =>
    if ¬isAdmin ∧ od.order.buyerId ≠ userId ∧ od.product.sellerId ≠ userId then
      .error .notAuthorized
    else if od.order.status ≠ .pending then .error .onlyPendingCancelable
    else
      let o' := { od.order with status := OrderStatus.canceled }
      let s₁ := setOrder s orderId o'
      match updateProductStock s₁ od.order.productId od.product.sellerId
          (od.product.stock + od.order.quantity) true with
      | .error e => .error e
      | .ok s₂ => .ok (s₂, o')

/-- Database state after a marketplace call: the new state on success, the
unchanged state on a thrown error (every throw in the modelled paths happens
before any write). -/
def runMarket (s : MarketState) (r : Except OrderErr (MarketState × Order)) :
    MarketState :=
  match r with
  | .ok (s', _) => s'
  | .error _ => s

theorem runMarket_error (s : MarketState) (r : Except OrderErr (MarketState × Order))
    (h : ∃ e, r = .error e) : runMarket s r = s := by
  obtain ⟨e, rfl⟩ := h
  rfl

/-! ## Ranking store and RankingService -/

/-- A UserRanking row: score plus the updatedBy audit field. -/
structure RankEntry where
  score : ℚ
  updatedBy : String
deriving DecidableEq

/-- The user_rankings table: (userId, categoryId) is the unique key. -/
abbrev RankState := String → String → Option RankEntry

/-- Write one ranking row at its unique (userId, categoryId) key. -/
def setRank (rs : RankState) (userId categoryId : String) (e : RankEntry) :
    RankState :=
  fun u c => if u = userId ∧ c = categoryId then some e else rs u c

/-- The score stored for (userId, categoryId), 0 when no row exists. -/
def scoreOf (rs : RankState) (userId categoryId : String) : ℚ :=
  match rs userId categoryId with
  | some e => e.score
  | none => 0

/-- RankingRepository.createRanking: insert a row; updatedBy falls back to
the userId when absent or empty (the JS expression updatedBy-or-userId). -/
def createRanking (rs : RankState) (userId categoryId : String) (score : ℚ)
    (updatedBy : Option String) : RankState :=
  let ub :=
    match updatedBy with
    | some u => if u = "" then userId else u
    | none => userId
  setRank rs userId categoryId { score := score, updatedBy := ub }

/-- RankingRepository.updateRanking with a partial patch: fields passed as
undefined are left unchanged by Prisma.  On an absent row Prisma throws; the
only caller (adjustRanking) guards with a find first, so that branch keeps
the state unchanged here. -/
def updateRankingRow (rs : RankState) (userId categoryId : String)
    (score : Option ℚ) (updatedBy : Option String) : RankState :=
  match rs userId categoryId with
  | none => rs
  | some e =>
    setRank rs userId categoryId
      { score := score.getD e.score, updatedBy := updatedBy.getD e.updatedBy }

/-- RankingService.adjustRanking: read the existing row; if present write
score + adjustment, otherwise create a row with score = adjustment. -/
def adjustRanking (rs : RankState) (userId categoryId : String)
    (adjustment : ℚ) (updatedBy : Option String) : RankState :=
  match rs userId categoryId with
  | some existing =>
    updateRankingRow rs userId categoryId (some (existing.score + adjustment)) updatedBy
  | none => createRanking rs userId categoryId adjustment updatedBy

/-- RankingService.applyOrderCompletionRanking: on success the seller gains
orderValue * 0.1 in the sales category and +5 reputation; on failure the
sales delta is -(orderValue * 0.05) and reputation takes -10.  The buyer id
is recorded as updatedBy. -/
def applyOrderCompletionRanking (rs : RankState) (sellerId buyerId : String)
    (orderValue : ℚ) (wasSuccessful : Bool) : RankState :=
  let salesAdjustment := if wasSuccessful then orderValue * (1/10) else -orderValue * (1/20)
  let rs₁ := adjustRanking rs sellerId "sales" salesAdjustment (some buyerId)
  let repAdjustment : ℚ := if wasSuccessful then 5 else -10
  adjustRanking rs₁ sellerId "reputation" repAdjustment (some buyerId)

/-- The engagement kind; it doubles as the EngagementType enum on records
(Like, Comment, Share) and as the kind argument of
applyPostEngagementRanking, which the engagement service maps one-to-one. -/
inductive EngKind
  | like
  | comment
  | share
deriving DecidableEq

/-- RankingService.applyPostEngagementRanking: the content-category delta is
1, 3 or 5 per unit for likes, comments and shares, applied to the content
owner's row with no updatedBy. -/
def applyPostEngagementRanking (rs : RankState) (userId : String)
    (engagementType : EngKind) (engagementValue : ℚ) : RankState :=
  let adjustment : ℚ :=
    match engagementType with
    | .like => 1 * engagementValue
    | .comment => 3 * engagementValue
    | .share => 5 * engagementValue
  adjustRanking rs userId "content" adjustment none

/-! ## EngagementService -/

/-- An Engagement row: id, actor, target content, content type tag, kind,
optional comment body and parent reference. -/
structure EngRecord where
  id : String
  userId : String
  contentId : String
  contentType : String
  type : EngKind
  comment : Option String := none
  parentId : Option String := none
deriving DecidableEq

/-- The engagements table in insertion order (Prisma create appends). -/
abbrev EngState := List EngRecord

/-- EngagementRepository.findUserEngagement: first row matching
(userId, contentId, type). -/
def findUserEngagement (es : EngState) (userId contentId : String) (t : EngKind) :
    Option EngRecord :=
  es.find? fun r => decide (r.userId = userId ∧ r.contentId = contentId ∧ r.type = t)

/-- EngagementRepository.findById. -/
def engFindById (es : EngState) (id : String) : Option EngRecord :=
  es.find? fun r => decide (r.id = id)

/-- EngagementRepository.create: insert the row. -/
def engCreate (es : EngState) (r : EngRecord) : EngState :=
  es ++ [r]

/-- EngagementRepository.delete by id. -/
def engDelete (es : EngState) (id : String) : EngState :=
  es.filter fun r => decide (r.id ≠ id)

/-- Engagement domain errors, one constructor per throw site in
engagement.service.ts. -/
inductive EngErr
  | alreadyLiked
  | likeNotFound
  | commentRequired
  | commentNotFound
  | notCommentOwner
deriving DecidableEq

/-- The best-effort ranking block shared by the five engagement operations:
when a content owner id is given (JS truthiness: defined and non-empty) and
differs from the acting user, call applyPostEngagementRanking; a failure in
that call (injected here through rankFails) is caught and logged, so the
scores are left as they were. -/
def bestEffortAdjust (rs : RankState) (userId : String)
    (contentOwnerId : Option String) (t : EngKind) (value : ℚ)
    (rankFails : Bool) : RankState :=
  match contentOwnerId with
  | some owner =>
    if owner ≠ "" ∧ owner ≠ userId then
      if rankFails then rs else applyPostEngagementRanking rs owner t value
    else rs
  | none => rs

/-- EngagementService.createLike: reject a duplicate (userId, contentId)
like, create the row, then best-effort +1 content ranking for the owner.
`newId` is the database-generated row id; `rankFails` injects a failure of
the ranking call. -/
def createLike (es : EngState) (rs : RankState)
    (newId userId contentId contentType : String)
    (contentOwnerId : Option String) (rankFails : Bool) :
    Except EngErr (EngRecord × EngState × RankState) :=
  match findUserEngagement es userId contentId .like with
  | some _ => .error .alreadyLiked
  | none =>
    let r : EngRecord :=
      { id := newId, userId := userId, contentId := contentId
        contentType := contentType, type := .like }
    .ok (r, engCreate es r, bestEffortAdjust rs userId contentOwnerId .like 1 rankFails)

/-- EngagementService.removeLike: delete the existing like (error when none)
then best-effort -1 content ranking for the owner. -/
def removeLike (es : EngState) (rs : RankState) (userId contentId : String)
    (contentOwnerId : Option String) (rankFails : Bool) :
    Except EngErr (EngState × RankState) :=
  match findUserEngagement es userId contentId .like with
  | none => .error .likeNotFound
  | some existingLike =>
    .ok (engDelete es existingLike.id,
      bestEffortAdjust rs userId contentOwnerId .like (-1) rankFails)

/-- EngagementService.createComment: the body must be non-empty after
trimming; create the row, then best-effort +3 content ranking (one comment
unit) for the owner. -/
def createComment (es : EngState) (rs : RankState)
    (newId userId contentId contentType commentText : String)
    (parentId contentOwnerId : Option String) (rankFails : Bool) :
    Except EngErr (EngRecord × EngState × RankState) :=
  if commentText.trim = "" then .error .commentRequired
  else
    let r : EngRecord :=
      { id := newId, userId := userId, contentId := contentId
        contentType := contentType, type := .comment
        comment := some commentText, parentId := parentId }
    .ok (r, engCreate es r,
      bestEffortAdjust rs userId contentOwnerId .comment 1 rankFails)

/-- EngagementService.deleteComment: load the record; only its author or an
admin may delete; delete it, then best-effort -3 content ranking for the
owner.  The self-engagement comparison is against the deleting userId, not
the record's author. -/
def deleteComment (es : EngState) (rs : RankState) (commentId userId : String)
    (isAdmin : Bool) (contentOwnerId : Option String) (rankFails : Bool) :
    Except EngErr (EngRecord × EngState × RankState) :=
  match engFindById es commentId with
  | none => .error .commentNotFound
  | some c =>
    if ¬isAdmin ∧ c.userId ≠ userId then .error .notCommentOwner
    else
      .ok (c, engDelete es commentId,
        bestEffortAdjust rs userId contentOwnerId .comment (-1) rankFails)

/-- EngagementService.createShare: create the row unconditionally (no
duplicate check), then best-effort +5 content ranking for the owner. -/
def createShare (es : EngState) (rs : RankState)
    (newId userId contentId contentType : String)
    (contentOwnerId : Option String) (rankFails : Bool) :
    Except EngErr (EngRecord × EngState × RankState) :=
  let r : EngRecord :=
    { id := newId, userId := userId, contentId := contentId
      contentType := contentType, type := .share }
  .ok (r, engCreate es r, bestEffortAdjust rs userId contentOwnerId .share 1 rankFails)

/-- Rank store after an engagement operation that returns a record: unchanged
when the operation threw. -/
def rankAfter (rs : RankState) (r : Except EngErr (EngRecord × EngState × RankState)) :
    RankState :=
  match r with
  | .ok (_, _, rs') => rs'
  | .error _ => rs

/-- Rank store after removeLike (which returns no record). -/
def rankAfterRemove (rs : RankState) (r : Except EngErr (EngState × RankState)) :
    RankState :=
  match r with
  | .ok (_, rs') => rs'
  | .error _ => rs

/-! ## Helper lemmas about the ranking store -/

theorem setRank_self (rs : RankState) (u c : String) (e : RankEntry) :
    setRank rs u c e u c = some e := by
  simp [setRank]

theorem setRank_other (rs : RankState) (u c u' c' : String) (e : RankEntry)
    (h : ¬(u' = u ∧ c' = c)) : setRank rs u c e u' c' = rs u' c' := by
  simp [setRank, h]

/-- One adjustRanking call moves the stored score (0 for a missing row) up by
exactly the adjustment. -/
theorem scoreOf_adjustRanking_self (rs : RankState) (u c : String) (d : ℚ)
    (ub : Option String) :
    scoreOf (adjustRanking rs u c d ub) u c = scoreOf rs u c + d := by
  unfold adjustRanking scoreOf
  cases h : rs u c with
  | none => simp [createRanking, h, setRank_self]
  | some e => simp [updateRankingRow, h, setRank_self]

/-- adjustRanking only touches its own (user, category) row. -/
theorem adjustRanking_apply_other (rs : RankState) (u c u' c' : String) (d : ℚ)
    (ub : Option String) (h : ¬(u' = u ∧ c' = c)) :
    adjustRanking rs u c d ub u' c' = rs u' c' := by
  unfold adjustRanking
  cases hx : rs u c with
  | none => simp [createRanking, setRank_other _ _ _ _ _ _ h]
  | some e => simp [updateRankingRow, hx, setRank_other _ _ _ _ _ _ h]

theorem scoreOf_adjustRanking_other (rs : RankState) (u c u' c' : String) (d : ℚ)
    (ub : Option String) (h : ¬(u' = u ∧ c' = c)) :
    scoreOf (adjustRanking rs u c d ub) u' c' = scoreOf rs u' c' := by
  unfold scoreOf
  rw [adjustRanking_apply_other rs u c u' c' d ub h]

/-- A ranking failure that the engagement service catches leaves every score
row untouched. -/
theorem bestEffortAdjust_rankFails (rs : RankState) (userId : String)
    (contentOwnerId : Option String) (t : EngKind) (value : ℚ) :
    bestEffortAdjust rs userId contentOwnerId t value true = rs := by
  unfold bestEffortAdjust
  cases contentOwnerId with
  | none => rfl
  | some o => simp

/-! ## Concrete fixtures used by witnesses and counterexamples -/

/-- The empty ranking store. -/
def rank0 : RankState := fun _ _ => none

/-- A live product: seller "sellerS", price 10, stock 5, active. -/
def productA : Product :=
  { sellerId := "sellerS", price := 10, stock := 5, isActive := true }

/-- A pending order from buyer "buyerB" for 2 units of "prodP" at total 20. -/
def orderPending : Order :=
  { buyerId := "buyerB", productId := "prodP", quantity := 2, totalPrice := 20
    status := .pending, shippingAddress := none }

/-- A marketplace state holding productA under "prodP" and the given order
under "ordO". -/
def mkState (o : Order) : MarketState :=
  { products := fun i => if i = "prodP" then some productA else none
    orders := fun i => if i = "ordO" then some o else none }

/-- The same order after completion. -/
def orderCompleted : Order := { orderPending with status := .completed }

/-- The same order after shipping. -/
def orderShipped : Order := { orderPending with status := .shipped }

/-! ## Claim theorems -/

/-- C3: adjustRanking writes score + delta onto an existing row and creates
a row with score = delta when none exists; hence two sequential calls with
deltas d₁ then d₂ (no concurrent writer) leave the score at
initial + d₁ + d₂, with initial taken as 0 when no row existed. -/
theorem adjustRanking_sequential_deltas (rs : RankState) (u c : String)
    (d₁ d₂ : ℚ) (ub₁ ub₂ : Option String) :
    (∀ e, rs u c = some e →
      ∃ e', adjustRanking rs u c d₁ ub₁ u c = some e' ∧ e'.score = e.score + d₁) ∧
    (rs u c = none →
      ∃ e', adjustRanking rs u c d₁ ub₁ u c = some e' ∧ e'.score = d₁) ∧
    scoreOf (adjustRanking (adjustRanking rs u c d₁ ub₁) u c d₂ ub₂) u c
      = scoreOf rs u c + d₁ + d₂ := by
  refine ⟨?_, ?_, ?_⟩
  · intro e he
    simp [adjustRanking, updateRankingRow, he, setRank_self]
  · intro he
    simp [adjustRanking, createRanking, he, setRank_self]
  · rw [scoreOf_adjustRanking_self, scoreOf_adjustRanking_self]

theorem adjustRanking_sequential_deltas_witness :
    (∃ e', adjustRanking rank0 "userU" "content" 2 none "userU" "content" = some e' ∧
      e'.score = 2) ∧
    scoreOf (adjustRanking (adjustRanking rank0 "userU" "content" 2 none)
      "userU" "content" 3 none) "userU" "content" = 5 := by
  have h := adjustRanking_sequential_deltas rank0 "userU" "content" 2 3 none none
  refine ⟨h.2.1 rfl, ?_⟩
  rw [h.2.2]
  norm_num [scoreOf, rank0]

/-- C9: applyOrderCompletionRanking with success flag true adds 10 percent
of the order value to the seller's sales score and 5 to the seller's
reputation score; with success flag false it adds minus 5 percent of the
order value to sales and subtracts 10 from reputation. -/
theorem applyOrderCompletionRanking_deltas (rs : RankState)
    (sellerId buyerId : String) (v : ℚ) :
    scoreOf (applyOrderCompletionRanking rs sellerId buyerId v true) sellerId "sales"
      = scoreOf rs sellerId "sales" + v * (1/10) ∧
    scoreOf (applyOrderCompletionRanking rs sellerId buyerId v true) sellerId "reputation"
      = scoreOf rs sellerId "reputation" + 5 ∧
    scoreOf (applyOrderCompletionRanking rs sellerId buyerId v false) sellerId "sales"
      = scoreOf rs sellerId "sales" - v * (1/20) ∧
    scoreOf (applyOrderCompletionRanking rs sellerId buyerId v false) sellerId "reputation"
      = scoreOf rs sellerId "reputation" - 10 := by
  have hsr : ¬(sellerId = sellerId ∧ ("sales" : String) = "reputation") := by
    rintro ⟨-, h⟩
    exact absurd h (by decide)
  have hrs : ¬(sellerId = sellerId ∧ ("reputation" : String) = "sales") := by
    rintro ⟨-, h⟩
    exact absurd h (by decide)
  refine ⟨?_, ?_, ?_, ?_⟩
  · simp only [applyOrderCompletionRanking, if_true]
    rw [scoreOf_adjustRanking_other _ _ _ _ _ _ _ hsr, scoreOf_adjustRanking_self]
  · simp only [applyOrderCompletionRanking, if_true]
    rw [scoreOf_adjustRanking_self, scoreOf_adjustRanking_other _ _ _ _ _ _ _ hrs]
  · simp only [applyOrderCompletionRanking, Bool.false_eq_true, if_false]
    rw [scoreOf_adjustRanking_other _ _ _ _ _ _ _ hsr, scoreOf_adjustRanking_self]
    ring
  · simp only [applyOrderCompletionRanking, Bool.false_eq_true, if_false]
    rw [scoreOf_adjustRanking_self, scoreOf_adjustRanking_other _ _ _ _ _ _ _ hrs]
    ring

/-- C1: once an order is completed or canceled, every updateOrderStatus call
on it fails — no actor, admin flag or target status yields a successful
write — and the database state (hence the order's status) is unchanged. -/
theorem terminal_updateOrderStatus_fails (s : MarketState) (orderId : String)
    (o : Order) (hord : s.orders orderId = some o)
    (hterm : o.status = OrderStatus.completed ∨ o.status = OrderStatus.canceled)
    (target : OrderStatus) (userId : String) (isAdmin : Bool) :
    (∃ e, updateOrderStatus s orderId target userId isAdmin = .error e) ∧
    runMarket s (updateOrderStatus s orderId target userId isAdmin) = s := by
  have hfail : ∃ e, updateOrderStatus s orderId target userId isAdmin = .error e := by
    cases hp : s.products o.productId with
    | none =>
      refine ⟨.orderNotFound, ?_⟩
      simp [updateOrderStatus, findOrderById, hord, hp]
    | some p =>
      have hv : ∃ e, validateStatusTransition o.status target userId ⟨o, p⟩ = .error e := by
        rcases hterm with h | h
        · exact ⟨.completedTerminal, by simp [validateStatusTransition, transitionCheck, h]⟩
        · exact ⟨.canceledTerminal, by simp [validateStatusTransition, transitionCheck, h]⟩
      obtain ⟨e, he⟩ := hv
      simp only [updateOrderStatus, findOrderById, hord, hp]
      split
      · exact ⟨.notAuthorized, rfl⟩
      · rw [he]
        exact ⟨e, rfl⟩
  exact ⟨hfail, runMarket_error _ _ hfail⟩

theorem terminal_updateOrderStatus_fails_witness :
    (∃ e, updateOrderStatus (mkState orderCompleted) "ordO" .processing "sellerS" false
      = .error e) ∧
    runMarket (mkState orderCompleted)
      (updateOrderStatus (mkState orderCompleted) "ordO" .processing "sellerS" false)
      = mkState orderCompleted :=
  terminal_updateOrderStatus_fails (mkState orderCompleted) "ordO" orderCompleted
    rfl (Or.inl rfl) .processing "sellerS" false

/-- A well-priced creation input for 2 units of "prodP" with no explicit
status (the shape the HTTP controller always sends). -/
def orderInput : CreateOrderInput :=
  { buyerId := "buyerB", productId := "prodP", quantity := 2, totalPrice := 20 }

/-- A creation input carrying an explicit status, as CreateOrderInput
permits. -/
def orderInputShipped : CreateOrderInput :=
  { buyerId := "buyerB", productId := "prodP", quantity := 1, totalPrice := 10
    status := some .shipped }

/-- C2 (amended): createOrder walks the validation cascade — missing product,
inactive product, insufficient stock, price mismatch beyond 0.01 — leaving
the state unchanged on every failure; otherwise it creates the order (at
status pending whenever the input carries no explicit status) and decrements
the product stock by exactly the quantity. -/
theorem createOrder_validation (s : MarketState) (newId : String)
    (d : CreateOrderInput) :
    (s.products d.productId = none →
      createOrder s newId d = .error .productNotFound) ∧
    (∀ p, s.products d.productId = some p → p.isActive = false →
      createOrder s newId d = .error .productNotAvailable) ∧
    (∀ p, s.products d.productId = some p → p.isActive = true →
      p.stock < d.quantity →
      createOrder s newId d = .error .insufficientStock) ∧
    (∀ p, s.products d.productId = some p → p.isActive = true →
      ¬p.stock < d.quantity →
      |p.price * (d.quantity : ℚ) - d.totalPrice| > 1/100 →
      createOrder s newId d = .error .priceMismatch) ∧
    (∀ e, createOrder s newId d = .error e →
      runMarket s (createOrder s newId d) = s) ∧
    (∀ p, s.products d.productId = some p → p.isActive = true →
      ¬p.stock < d.quantity →
      ¬|p.price * (d.quantity : ℚ) - d.totalPrice| > 1/100 →
      createOrder s newId d =
        .ok (setProduct (setOrder s newId (mkOrder d)) d.productId
          { p with stock := p.stock - d.quantity }, mkOrder d) ∧
      (d.status = none → (mkOrder d).status = .pending) ∧
      (setProduct (setOrder s newId (mkOrder d)) d.productId
        { p with stock := p.stock - d.quantity }).orders newId = some (mkOrder d) ∧
      (setProduct (setOrder s newId (mkOrder d)) d.productId
        { p with stock := p.stock - d.quantity }).products d.productId
        = some { p with stock := p.stock - d.quantity }) := by
  refine ⟨?_, ?_, ?_, ?_, ?_, ?_⟩
  · intro hp
    simp [createOrder, hp]
  · intro p hp hact
    simp [createOrder, hp, hact]
  · intro p hp hact hstock
    simp only [createOrder, hp]
    rw [if_neg (by simp [hact]), if_pos hstock]
  · intro p hp hact hstock hprice
    simp only [createOrder, hp]
    rw [if_neg (by simp [hact]), if_neg hstock, if_pos hprice]
  · intro e he
    exact runMarket_error _ _ ⟨e, he⟩
  · intro p hp hact hstock hprice
    refine ⟨?_, fun h => by simp [mkOrder, h], ?_, ?_⟩
    · simp only [createOrder, hp]
      rw [if_neg (by simp [hact]), if_neg hstock, if_neg hprice]
      have hup : updateProductStock (setOrder s newId (mkOrder d)) d.productId
          p.sellerId (p.stock - d.quantity) true =
          .ok (setProduct (setOrder s newId (mkOrder d)) d.productId
            { p with stock := p.stock - d.quantity }) := by
        simp [updateProductStock, setOrder, hp]
      rw [hup]
    · simp [setOrder, setProduct]
    · simp [setProduct]

theorem createOrder_validation_witness :
    createOrder (mkState orderPending) "newO" orderInput =
      .ok (setProduct (setOrder (mkState orderPending) "newO" (mkOrder orderInput))
        "prodP" { productA with stock := 3 }, mkOrder orderInput) ∧
    (mkOrder orderInput).status = .pending := by
  have h := (createOrder_validation (mkState orderPending) "newO" orderInput).2.2.2.2.2
    productA rfl rfl (by decide) (by norm_num [productA, orderInput])
  have h3 : productA.stock - orderInput.quantity = (3 : ℤ) := by decide
  refine ⟨?_, h.2.1 rfl⟩
  rw [h3] at h
  exact h.1

/-- Unfold a successful findOrderById into its two row lookups. -/
theorem findOrderById_eq (s : MarketState) (id : String) (od : OrderWithDetails)
    (h : findOrderById s id = some od) :
    s.orders id = some od.order ∧ s.products od.order.productId = some od.product := by
  simp only [findOrderById] at h
  cases ho : s.orders id with
  | none => simp [ho] at h
  | some o =>
    simp only [ho] at h
    cases hp : s.products o.productId with
    | none => simp [hp] at h
    | some p =>
      simp only [hp, Option.some.injEq] at h
      subst h
      constructor
      · simp [ho]
      · simpa using hp

/-- A role-rule violation makes validateStatusTransition fail, whatever the
current status (the error kind depends on whether the transition-table
check, which runs first, already rejects the move). -/
theorem validate_role_violation (cur target : OrderStatus) (userId : String)
    (od : OrderWithDetails)
    (hviol : (userId = od.product.sellerId ∧
        ¬(target = .processing ∨ target = .shipped ∨ target = .completed)) ∨
      (userId = od.order.buyerId ∧ target ≠ .canceled)) :
    ∃ e, validateStatusTransition cur target userId od = .error e := by
  cases h : transitionCheck cur target with
  | error e => exact ⟨e, by simp [validateStatusTransition, h]⟩
  | ok u =>
    cases u
    by_cases hsc : userId = od.product.sellerId ∧
        ¬(target = .processing ∨ target = .shipped ∨ target = .completed)
    · refine ⟨.sellerRoleRestriction, ?_⟩
      simp only [validateStatusTransition, h]
      rw [if_pos hsc]
    · rcases hviol with hs | ⟨hb, hnc⟩
      · exact absurd hs hsc
      · refine ⟨.buyerRoleRestriction, ?_⟩
        simp only [validateStatusTransition, h]
        rw [if_neg hsc, if_pos ⟨hb, hnc⟩]

/-- When the transition-table check passes, a role-rule violation yields
exactly one of the two role-restriction errors. -/
theorem validate_role_violation_legal (cur target : OrderStatus) (userId : String)
    (od : OrderWithDetails)
    (hviol : (userId = od.product.sellerId ∧
        ¬(target = .processing ∨ target = .shipped ∨ target = .completed)) ∨
      (userId = od.order.buyerId ∧ target ≠ .canceled))
    (hlegal : transitionCheck cur target = .ok ()) :
    validateStatusTransition cur target userId od = .error .sellerRoleRestriction ∨
    validateStatusTransition cur target userId od = .error .buyerRoleRestriction := by
  by_cases hsc : userId = od.product.sellerId ∧
      ¬(target = .processing ∨ target = .shipped ∨ target = .completed)
  · refine Or.inl ?_
    simp only [validateStatusTransition, hlegal]
    rw [if_pos hsc]
  · rcases hviol with hs | ⟨hb, hnc⟩
    · exact absurd hs hsc
    · refine Or.inr ?_
      simp only [validateStatusTransition, hlegal]
      rw [if_neg hsc, if_pos ⟨hb, hnc⟩]

/-- C4 (amended): for every non-admin caller who is the seller with a
target outside processing/shipped/completed, or the buyer with a target
other than canceled, updateOrderStatus always fails; the failure is the 403
Forbidden role-restriction error whenever the raw transition-table move from
the current status is legal, and the table's own error (HTTP 400) when it is
not, because the table check runs before the role checks. -/
theorem updateStatus_role_restriction (s : MarketState) (orderId : String)
    (od : OrderWithDetails) (target : OrderStatus) (userId : String)
    (hfind : findOrderById s orderId = some od)
    (hviol : (userId = od.product.sellerId ∧
        ¬(target = .processing ∨ target = .shipped ∨ target = .completed)) ∨
      (userId = od.order.buyerId ∧ target ≠ .canceled)) :
    (∃ e, updateOrderStatus s orderId target userId false = .error e) ∧
    (transitionCheck od.order.status target = .ok () →
      ∃ e, updateOrderStatus s orderId target userId false = .error e ∧
        updateStatusHttpCode e = 403) ∧
    (∀ e', transitionCheck od.order.status target = .error e' →
      updateOrderStatus s orderId target userId false = .error e') := by
  have hred : updateOrderStatus s orderId target userId false =
      match validateStatusTransition od.order.status target userId od with
      | .error e => .error e
      | .ok _ => .ok (setOrder s orderId { od.order with status := target },
          { od.order with status := target }) := by
    simp only [updateOrderStatus, hfind]
    rw [if_neg ?_]
    rintro ⟨-, hns, hnb⟩
    rcases hviol with ⟨hs, -⟩ | ⟨hb, -⟩
    · exact hns hs.symm
    · exact hnb hb.symm
  refine ⟨?_, ?_, ?_⟩
  · obtain ⟨e, he⟩ := validate_role_violation od.order.status target userId od hviol
    exact ⟨e, by rw [hred, he]⟩
  · intro hlegal
    rcases validate_role_violation_legal od.order.status target userId od hviol hlegal
        with he | he
    · exact ⟨.sellerRoleRestriction, by rw [hred, he], rfl⟩
    · exact ⟨.buyerRoleRestriction, by rw [hred, he], rfl⟩
  · intro e' he'
    have hv : validateStatusTransition od.order.status target userId od = .error e' := by
      simp [validateStatusTransition, he']
    rw [hred, hv]

/-- Kept close to updateStatus_role_restriction: witness instantiation. -/
theorem updateStatus_role_restriction_witness :
    ∃ e, updateOrderStatus (mkState orderPending) "ordO" .processing "buyerB" false
      = .error e ∧ updateStatusHttpCode e = 403 :=
  (updateStatus_role_restriction (mkState orderPending) "ordO" ⟨orderPending, productA⟩
    .processing "buyerB" rfl (Or.inr ⟨rfl, by decide⟩)).2.1 rfl

/-- C4 counterexample to the claim as stated: the seller targeting canceled
on a shipped order is a role violation, yet the call fails with the
transition-table error (HTTP 400), not with Forbidden (403). -/
theorem updateStatus_role_restriction_counterexample :
    productA.sellerId = "sellerS" ∧
    ¬(OrderStatus.canceled = .processing ∨ OrderStatus.canceled = .shipped ∨
      OrderStatus.canceled = .completed) ∧
    updateOrderStatus (mkState orderShipped) "ordO" .canceled "sellerS" false
      = .error (.invalidTransition .shipped .canceled) ∧
    updateStatusHttpCode (.invalidTransition .shipped .canceled) ≠ 403 := by
  refine ⟨rfl, by decide, rfl, by decide⟩

/-- C2 counterexample to the claim as stated: a createOrder call whose input
carries an explicit status creates the order at that status, not at
pending. -/
theorem createOrder_explicit_status_not_pending :
    ∃ s' o, createOrder (mkState orderPending) "newO" orderInputShipped = .ok (s', o) ∧
      o.status = OrderStatus.shipped ∧ ¬o.status = OrderStatus.pending := by
  refine ⟨setProduct (setOrder (mkState orderPending) "newO" (mkOrder orderInputShipped))
    "prodP" { productA with stock := productA.stock - orderInputShipped.quantity },
    mkOrder orderInputShipped, ?_, rfl, by decide⟩
  have hp : (mkState orderPending).products orderInputShipped.productId = some productA := rfl
  simp only [createOrder, hp]
  rw [if_neg (by simp [productA]), if_neg (by decide),
    if_neg (by norm_num [productA, orderInputShipped])]
  have hup : updateProductStock
      (setOrder (mkState orderPending) "newO" (mkOrder orderInputShipped))
      orderInputShipped.productId productA.sellerId
      (productA.stock - orderInputShipped.quantity) true =
      .ok (setProduct (setOrder (mkState orderPending) "newO" (mkOrder orderInputShipped))
        "prodP" { productA with stock := productA.stock - orderInputShipped.quantity }) := by
    simp [updateProductStock, setOrder, hp]
    rfl
  rw [hup]

/-- C5 (amended): a non-admin buyer (who is not the seller) canceling their
pending order through updateOrderStatus succeeds and sets the status to
canceled, but the product table — hence the stock — is untouched: stock
restoration happens only inside cancelOrder. -/
theorem buyer_cancel_via_updateStatus (s : MarketState) (orderId userId : String)
    (od : OrderWithDetails)
    (hfind : findOrderById s orderId = some od)
    (hpend : od.order.status = .pending)
    (hbuyer : userId = od.order.buyerId)
    (hnotseller : userId ≠ od.product.sellerId) :
    updateOrderStatus s orderId .canceled userId false =
      .ok (setOrder s orderId { od.order with status := .canceled },
        { od.order with status := .canceled }) ∧
    (setOrder s orderId { od.order with status := .canceled }).orders orderId
      = some { od.order with status := .canceled } ∧
    (setOrder s orderId { od.order with status := .canceled }).products
      = s.products := by
  have htc : transitionCheck .pending .canceled = .ok () := rfl
  have hval : validateStatusTransition od.order.status .canceled userId od = .ok () := by
    rw [hpend]
    simp only [validateStatusTransition, htc]
    rw [if_neg fun h => hnotseller h.1, if_neg fun h => h.2 rfl]
  refine ⟨?_, by simp [setOrder], rfl⟩
  simp only [updateOrderStatus, hfind]
  rw [if_neg ?_, hval]
  rintro ⟨-, -, hnb⟩
  exact hnb hbuyer.symm

theorem buyer_cancel_via_updateStatus_witness :
    updateOrderStatus (mkState orderPending) "ordO" .canceled "buyerB" false =
      .ok (setOrder (mkState orderPending) "ordO" { orderPending with status := .canceled },
        { orderPending with status := .canceled }) ∧
    (setOrder (mkState orderPending) "ordO" { orderPending with status := .canceled }).orders
      "ordO" = some { orderPending with status := .canceled } ∧
    (setOrder (mkState orderPending) "ordO"
      { orderPending with status := .canceled }).products = (mkState orderPending).products :=
  buyer_cancel_via_updateStatus (mkState orderPending) "ordO" "buyerB"
    ⟨orderPending, productA⟩ rfl rfl rfl (by decide)

/-- C5 counterexample to the claim as stated: the buyer cancels a pending
order through updateOrderStatus; the call succeeds and the order becomes
canceled, yet the product's stock is not restored by the order quantity —
it is exactly what it was before the call. -/
theorem buyer_cancel_no_stock_restore :
    (∃ s' o', updateOrderStatus (mkState orderPending) "ordO" .canceled "buyerB" false
      = .ok (s', o') ∧ o'.status = OrderStatus.canceled) ∧
    (runMarket (mkState orderPending)
      (updateOrderStatus (mkState orderPending) "ordO" .canceled "buyerB" false)).products
      "prodP" = some productA ∧
    (∀ p, (runMarket (mkState orderPending)
      (updateOrderStatus (mkState orderPending) "ordO" .canceled "buyerB" false)).products
        "prodP" = some p → ¬p.stock = productA.stock + orderPending.quantity) := by
  refine ⟨⟨_, _, rfl, rfl⟩, rfl, ?_⟩
  intro p hp
  have hcomp : (runMarket (mkState orderPending)
      (updateOrderStatus (mkState orderPending) "ordO" .canceled "buyerB" false)).products
      "prodP" = some productA := rfl
  rw [hcomp, Option.some.injEq] at hp
  subst hp
  decide

/-- C6: cancelOrder, called by the buyer, the seller or an admin, succeeds
exactly when the order is pending (failing with the invalid-state error
otherwise); on success the order becomes canceled and the product's stock is
increased by the order quantity. -/
theorem cancelOrder_pending_only (s : MarketState) (orderId userId : String)
    (isAdmin : Bool) (od : OrderWithDetails)
    (hfind : findOrderById s orderId = some od)
    (hauth : isAdmin = true ∨ userId = od.order.buyerId ∨ userId = od.product.sellerId) :
    (¬od.order.status = .pending →
      cancelOrder s orderId userId isAdmin = .error .onlyPendingCancelable) ∧
    (od.order.status = .pending →
      cancelOrder s orderId userId isAdmin =
        .ok (setProduct (setOrder s orderId { od.order with status := .canceled })
            od.order.productId
            { od.product with stock := od.product.stock + od.order.quantity },
          { od.order with status := .canceled }) ∧
      (setProduct (setOrder s orderId { od.order with status := .canceled })
        od.order.productId
        { od.product with stock := od.product.stock + od.order.quantity }).orders orderId
        = some { od.order with status := .canceled } ∧
      (setProduct (setOrder s orderId { od.order with status := .canceled })
        od.order.productId
        { od.product with stock := od.product.stock + od.order.quantity }).products
        od.order.productId
        = some { od.product with stock := od.product.stock + od.order.quantity }) := by
  have hauthneg : ¬(¬isAdmin = true ∧ od.order.buyerId ≠ userId ∧
      od.product.sellerId ≠ userId) := by
    rintro ⟨hna, hnb, hns⟩
    rcases hauth with ha | hb | hs
    · exact hna ha
    · exact hnb hb.symm
    · exact hns hs.symm
  constructor
  · intro hnp
    simp only [cancelOrder, hfind]
    rw [if_neg hauthneg, if_pos hnp]
  · intro hp
    obtain ⟨-, hprod⟩ := findOrderById_eq s orderId od hfind
    have hup : updateProductStock (setOrder s orderId { od.order with status := .canceled })
        od.order.productId od.product.sellerId
        (od.product.stock + od.order.quantity) true =
        .ok (setProduct (setOrder s orderId { od.order with status := .canceled })
          od.order.productId
          { od.product with stock := od.product.stock + od.order.quantity }) := by
      simp [updateProductStock, setOrder, hprod]
    refine ⟨?_, by simp [setOrder, setProduct], by simp [setProduct]⟩
    simp only [cancelOrder, hfind]
    rw [if_neg hauthneg, if_neg (by simp [hp]), hup]

theorem cancelOrder_pending_only_witness :
    (mkState orderPending).orders "ordO" = some orderPending ∧
    orderPending.status = .pending ∧
    cancelOrder (mkState orderPending) "ordO" "buyerB" false =
      .ok (setProduct (setOrder (mkState orderPending) "ordO"
          { orderPending with status := .canceled }) orderPending.productId
          { productA with stock := productA.stock + orderPending.quantity },
        { orderPending with status := .canceled }) := by
  have h := (cancelOrder_pending_only (mkState orderPending) "ordO" "buyerB" false
    ⟨orderPending, productA⟩ rfl (Or.inr (Or.inl rfl))).2 rfl
  exact ⟨rfl, rfl, h.1⟩

/-- C7: in each of the five engagement operations, when the primary record
mutation succeeds, an injected failure of the ranking adjustment is caught
and the operation still returns the same successful primary result (record
and engagement table), with every score left as it was. -/
theorem ranking_failure_swallowed (es : EngState) (rs : RankState)
    (newId userId contentId contentType commentText commentId : String)
    (parentId contentOwnerId : Option String) (isAdmin : Bool) :
    (∀ r es₁ rs₁,
      createLike es rs newId userId contentId contentType contentOwnerId false
        = .ok (r, es₁, rs₁) →
      createLike es rs newId userId contentId contentType contentOwnerId true
        = .ok (r, es₁, rs)) ∧
    (∀ es₁ rs₁,
      removeLike es rs userId contentId contentOwnerId false = .ok (es₁, rs₁) →
      removeLike es rs userId contentId contentOwnerId true = .ok (es₁, rs)) ∧
    (∀ r es₁ rs₁,
      createComment es rs newId userId contentId contentType commentText parentId
        contentOwnerId false = .ok (r, es₁, rs₁) →
      createComment es rs newId userId contentId contentType commentText parentId
        contentOwnerId true = .ok (r, es₁, rs)) ∧
    (∀ r es₁ rs₁,
      deleteComment es rs commentId userId isAdmin contentOwnerId false
        = .ok (r, es₁, rs₁) →
      deleteComment es rs commentId userId isAdmin contentOwnerId true
        = .ok (r, es₁, rs)) ∧
    (∀ r es₁ rs₁,
      createShare es rs newId userId contentId contentType contentOwnerId false
        = .ok (r, es₁, rs₁) →
      createShare es rs newId userId contentId contentType contentOwnerId true
        = .ok (r, es₁, rs)) := by
  refine ⟨?_, ?_, ?_, ?_, ?_⟩
  · intro r es₁ rs₁ h
    cases hf : findUserEngagement es userId contentId .like with
    | some x => simp [createLike, hf] at h
    | none =>
      simp only [createLike, hf, Except.ok.injEq, Prod.mk.injEq] at h
      obtain ⟨hr, hes, -⟩ := h
      subst hr
      subst hes
      simp only [createLike, hf, bestEffortAdjust_rankFails]
  · intro es₁ rs₁ h
    cases hf : findUserEngagement es userId contentId .like with
    | none => simp [removeLike, hf] at h
    | some x =>
      simp only [removeLike, hf, Except.ok.injEq, Prod.mk.injEq] at h
      obtain ⟨hes, -⟩ := h
      subst hes
      simp only [removeLike, hf, bestEffortAdjust_rankFails]
  · intro r es₁ rs₁ h
    by_cases hg : commentText.trim = ""
    · simp [createComment, hg] at h
    · simp only [createComment, if_neg hg, Except.ok.injEq, Prod.mk.injEq] at h
      obtain ⟨hr, hes, -⟩ := h
      subst hr
      subst hes
      simp only [createComment, if_neg hg, bestEffortAdjust_rankFails]
  · intro r es₁ rs₁ h
    cases hf : engFindById es commentId with
    | none => simp [deleteComment, hf] at h
    | some c =>
      simp only [deleteComment, hf] at h ⊢
      by_cases ha : ¬isAdmin = true ∧ c.userId ≠ userId
      · rw [if_pos ha] at h
        exact absurd h (by simp)
      · rw [if_neg ha] at h ⊢
        simp only [Except.ok.injEq, Prod.mk.injEq] at h
        obtain ⟨hr, hes, -⟩ := h
        subst hr
        subst hes
        simp only [bestEffortAdjust_rankFails]
  · intro r es₁ rs₁ h
    simp only [createShare, Except.ok.injEq, Prod.mk.injEq] at h
    obtain ⟨hr, hes, -⟩ := h
    subst hr
    subst hes
    simp only [createShare, bestEffortAdjust_rankFails]

/-- The concrete like record used by engagement witnesses. -/
def likeRec : EngRecord :=
  { id := "eng1", userId := "userA", contentId := "cont1"
    contentType := "Post", type := .like }

theorem ranking_failure_swallowed_witness :
    createLike [] rank0 "eng1" "userA" "cont1" "Post" (some "userB") true =
      .ok (likeRec, [likeRec], rank0) :=
  (ranking_failure_swallowed [] rank0 "eng1" "userA" "cont1" "Post" "txt" "cid"
    none (some "userB") false).1 _ _ _ rfl

/-- find? over an appended list when the first part holds no match. -/
theorem find?_append_of_none {α : Type} (p : α → Bool) (l₁ l₂ : List α)
    (h : l₁.find? p = none) : (l₁ ++ l₂).find? p = l₂.find? p := by
  induction l₁ with
  | nil => rfl
  | cons a t ih =>
    cases hpa : p a with
    | true =>
      rw [List.find?_cons_of_pos _ hpa] at h
      cases h
    | false =>
      rw [List.find?_cons_of_neg _ (by simp [hpa])] at h
      rw [List.cons_append, List.find?_cons_of_neg _ (by simp [hpa])]
      exact ih h

/-- The like row created by createLike for the given actor and content. -/
def mkLikeRec (newId userId contentId contentType : String) : EngRecord :=
  { id := newId, userId := userId, contentId := contentId
    contentType := contentType, type := .like }

/-- C8: A liking B's content bumps B's content score by one, and A then
removing the like brings the score back to exactly its original value. -/
theorem like_unlike_roundtrip (es : EngState) (rs : RankState)
    (newId A B contentId contentType : String)
    (hAB : A ≠ B) (hBne : B ≠ "")
    (hnolike : findUserEngagement es A contentId .like = none) :
    ∃ r es₁ rs₁ es₂ rs₂,
      createLike es rs newId A contentId contentType (some B) false
        = .ok (r, es₁, rs₁) ∧
      scoreOf rs₁ B "content" = scoreOf rs B "content" + 1 ∧
      removeLike es₁ rs₁ A contentId (some B) false = .ok (es₂, rs₂) ∧
      scoreOf rs₂ B "content" = scoreOf rs B "content" := by
  have hBA : B ≠ A := fun h => hAB h.symm
  have hbe : ∀ (rs' : RankState) (v : ℚ),
      bestEffortAdjust rs' A (some B) .like v false
        = applyPostEngagementRanking rs' B .like v := by
    intro rs' v
    simp only [bestEffortAdjust]
    rw [if_pos ⟨hBne, hBA⟩]
    rfl
  have hc : createLike es rs newId A contentId contentType (some B) false =
      .ok (mkLikeRec newId A contentId contentType,
        engCreate es (mkLikeRec newId A contentId contentType),
        applyPostEngagementRanking rs B .like 1) := by
    simp only [createLike, hnolike, hbe, mkLikeRec]
  have hs₁ : scoreOf (applyPostEngagementRanking rs B .like 1) B "content"
      = scoreOf rs B "content" + 1 := by
    simp only [applyPostEngagementRanking]
    rw [scoreOf_adjustRanking_self]
    norm_num
  have hfind₁ : findUserEngagement
      (engCreate es (mkLikeRec newId A contentId contentType)) A contentId .like
      = some (mkLikeRec newId A contentId contentType) := by
    simp only [findUserEngagement, engCreate] at hnolike ⊢
    rw [find?_append_of_none _ _ _ hnolike]
    simp [mkLikeRec, List.find?]
  have hrm : removeLike
      (engCreate es (mkLikeRec newId A contentId contentType))
      (applyPostEngagementRanking rs B .like 1) A contentId (some B) false =
      .ok (engDelete (engCreate es (mkLikeRec newId A contentId contentType)) newId,
        applyPostEngagementRanking (applyPostEngagementRanking rs B .like 1)
          B .like (-1)) := by
    simp only [removeLike]
    rw [hfind₁]
    simp [mkLikeRec, hbe]
  have hs₂ : scoreOf (applyPostEngagementRanking
      (applyPostEngagementRanking rs B .like 1) B .like (-1)) B "content"
      = scoreOf rs B "content" := by
    simp only [applyPostEngagementRanking]
    rw [scoreOf_adjustRanking_self, scoreOf_adjustRanking_self]
    ring
  exact ⟨_, _, _, _, _, hc, hs₁, hrm, hs₂⟩

theorem like_unlike_roundtrip_witness :
    ∃ r es₁ rs₁ es₂ rs₂,
      createLike [] rank0 "eng1" "userA" "cont1" "Post" (some "userB") false
        = .ok (r, es₁, rs₁) ∧
      scoreOf rs₁ "userB" "content" = scoreOf rank0 "userB" "content" + 1 ∧
      removeLike es₁ rs₁ "userA" "cont1" (some "userB") false = .ok (es₂, rs₂) ∧
      scoreOf rs₂ "userB" "content" = scoreOf rank0 "userB" "content" :=
  like_unlike_roundtrip [] rank0 "eng1" "userA" "userB" "cont1" "Post"
    (by decide) (by decide) rfl

/-- C10: when the content owner argument is omitted or equals the acting
user, none of the five engagement operations touches any score row; and the
self-engagement comparison in deleteComment is against the deleting actor,
not the comment's author — an admin deleting someone else's comment with the
author given as owner does trigger the -3 adjustment for that author. -/
theorem self_engagement_no_score_change (es : EngState) (rs : RankState)
    (newId userId contentId contentType commentText commentId : String)
    (parentId : Option String) (isAdmin rankFails : Bool)
    (contentOwnerId : Option String) :
    (contentOwnerId = none ∨ contentOwnerId = some userId →
      rankAfter rs (createLike es rs newId userId contentId contentType
        contentOwnerId rankFails) = rs ∧
      rankAfterRemove rs (removeLike es rs userId contentId contentOwnerId
        rankFails) = rs ∧
      rankAfter rs (createComment es rs newId userId contentId contentType
        commentText parentId contentOwnerId rankFails) = rs ∧
      rankAfter rs (deleteComment es rs commentId userId isAdmin contentOwnerId
        rankFails) = rs ∧
      rankAfter rs (createShare es rs newId userId contentId contentType
        contentOwnerId rankFails) = rs) ∧
    (∀ c, engFindById es commentId = some c → c.userId ≠ userId → c.userId ≠ "" →
      ∃ es', deleteComment es rs commentId userId true (some c.userId) false
        = .ok (c, es', adjustRanking rs c.userId "content" (3 * (-1)) none)) := by
  constructor
  · intro howner
    have hskip : ∀ (t : EngKind) (v : ℚ),
        bestEffortAdjust rs userId contentOwnerId t v rankFails = rs := by
      intro t v
      rcases howner with rfl | rfl
      · rfl
      · simp only [bestEffortAdjust]
        rw [if_neg fun h => h.2 rfl]
    refine ⟨?_, ?_, ?_, ?_, ?_⟩
    · cases hf : findUserEngagement es userId contentId .like with
      | some x => simp [rankAfter, createLike, hf]
      | none => simp [rankAfter, createLike, hf, hskip]
    · cases hf : findUserEngagement es userId contentId .like with
      | none => simp [rankAfterRemove, removeLike, hf]
      | some x => simp [rankAfterRemove, removeLike, hf, hskip]
    · by_cases hg : commentText.trim = ""
      · simp [rankAfter, createComment, hg]
      · simp [rankAfter, createComment, hg, hskip]
    · cases hf : engFindById es commentId with
      | none => simp [rankAfter, deleteComment, hf]
      | some c =>
        by_cases ha : ¬isAdmin = true ∧ c.userId ≠ userId
        · simp only [rankAfter, deleteComment, hf]
          rw [if_pos ha]
        · simp only [rankAfter, deleteComment, hf]
          rw [if_neg ha, hskip]
    · simp [rankAfter, createShare, hskip]
  · intro c hc hne hne'
    have hbea : bestEffortAdjust rs userId (some c.userId) .comment (-1) false
        = adjustRanking rs c.userId "content" (3 * (-1)) none := by
      simp only [bestEffortAdjust]
      rw [if_pos ⟨hne', hne⟩]
      rfl
    refine ⟨engDelete es commentId, ?_⟩
    simp only [deleteComment, hc]
    rw [if_neg (by simp), hbea]

theorem self_engagement_no_score_change_witness :
    rankAfter rank0 (createLike [] rank0 "eng1" "userA" "cont1" "Post" none false)
      = rank0 ∧
    rankAfter rank0 (createShare [] rank0 "eng1" "userA" "cont1" "Post"
      (some "userA") false) = rank0 :=
  have h := (self_engagement_no_score_change [] rank0 "eng1" "userA" "cont1" "Post"
    "txt" "cid" none false false none).1 (Or.inl rfl)
  have h' := (self_engagement_no_score_change [] rank0 "eng1" "userA" "cont1" "Post"
    "txt" "cid" none false false (some "userA")).1 (Or.inr rfl)
  ⟨h.1, h'.2.2.2.2⟩

end Booth
